import Mathlib

/-
Verification of the quality-checker core of the `claude-sage` repository.

The primary source embedded here is `src/skills/verify_quality.py` (the
self-contained quality checker).  Strings are embedded as lists of
characters (`Str := List Char`); Python's `str.split("\n")`, `str.strip()`,
`str.startswith`, `len`, and the specific regular expressions used by the
checker are embedded as executable Lean functions.  The AST-based analyzer
(`skills/verify-quality/scripts/quality_checker.py`, exercised by
`src/skills/tests/test_quality_checker.py`) is not present under `src/`;
the parts of it that the claims need are modelled from the spec and are
marked as such in their doc comments.
-/

/-- Characters of a Python `str`, in order.  All Python strings in the
embedding are represented this way. -/
abbrev Str := List Char

/-- ASCII whitespace, the characters stripped by `str.strip()` and matched
by `\s` (the embedding restricts Python's unicode whitespace to ASCII;
every input appearing in the development is ASCII). -/
def isSpaceChar (c : Char) : Bool :=
  c = ' ' || c = '\t' || c = '\n' || c = '\r' || c = Char.ofNat 11 || c = Char.ofNat 12

/-- ASCII word characters, the characters matched by `\w` and delimiting
`\b` (unicode letters are not modelled; all inputs used here are ASCII). -/
def isWordChar (c : Char) : Bool :=
  ('a' ≤ c && c ≤ 'z') || ('A' ≤ c && c ≤ 'Z') || ('0' ≤ c && c ≤ '9') || c = '_'

/-- ASCII case folding, the embedding of `str.lower()` restricted to ASCII. -/
def asciiLower : Char → Char
  | 'A' => 'a'
  | 'B' => 'b'
  | 'C' => 'c'
  | 'D' => 'd'
  | 'E' => 'e'
  | 'F' => 'f'
  | 'G' => 'g'
  | 'H' => 'h'
  | 'I' => 'i'
  | 'J' => 'j'
  | 'K' => 'k'
  | 'L' => 'l'
  | 'M' => 'm'
  | 'N' => 'n'
  | 'O' => 'o'
  | 'P' => 'p'
  | 'Q' => 'q'
  | 'R' => 'r'
  | 'S' => 's'
  | 'T' => 't'
  | 'U' => 'u'
  | 'V' => 'v'
  | 'W' => 'w'
  | 'X' => 'x'
  | 'Y' => 'y'
  | 'Z' => 'z'
  | c => c

/-- `s.lower()` on an embedded string. -/
def lowerStr (s : Str) : Str := s.map asciiLower

/-- `content.split("\n")`: always returns at least one (possibly empty)
line, exactly like Python's `str.split` on a separator. -/
def splitLines : Str → List Str
  | [] => [[]]
  | c :: cs =>
    match splitLines cs with
    | [] => [[]]
    | h :: t => if c = '\n' then [] :: h :: t else (c :: h) :: t

/-- Decimal rendering of a `Nat`, for embedding Python f-string
interpolation of integer counts. -/
def natStr (n : Nat) : Str := (toString n).data

/-- The apostrophe character used by messages such as `函数 '{name}'`. -/
def quoteChar : Char := Char.ofNat 39

/-- `Severity` from `verify_quality.py` (lines 17-20). -/
inductive Severity where
  | ERROR
  | WARNING
  | INFO
deriving DecidableEq, Repr

/-- `QualityIssue` from `verify_quality.py` (lines 23-30). -/
structure QualityIssue where
  severity : Severity
  category : Str
  message : Str
  file : Str
  line : Nat
  suggestion : Str
deriving DecidableEq, Repr

/-- `QualityReport` from `verify_quality.py` (lines 33-37); the `metrics`
dict is modelled separately (`ScanMetrics`) where a claim needs it. -/
structure QualityReport where
  passed : Bool
  issues : List QualityIssue
deriving DecidableEq, Repr

/-- A fresh `QualityReport()`: `passed=True`, no issues. -/
def freshReport : QualityReport := ⟨true, []⟩

/-- `QualityReport.add_issue` (lines 39-42): append the issue and clear
`passed` when its severity is ERROR. -/
def add_issue (r : QualityReport) (i : QualityIssue) : QualityReport :=
  ⟨if i.severity = Severity.ERROR then false else r.passed, r.issues ++ [i]⟩

/-- `CODE_EXTENSIONS` (lines 52-61), as an association list in source
order. -/
def CODE_EXTENSIONS : List (Str × Str) :=
  [(".py".data, "python".data),
   (".js".data, "javascript".data),
   (".ts".data, "typescript".data),
   (".jsx".data, "javascript".data),
   (".tsx".data, "typescript".data),
   (".go".data, "go".data),
   (".rs".data, "rust".data),
   (".java".data, "java".data)]

/-- `CODE_EXTENSIONS.get(key, "unknown")`. -/
def lookupTag (key : Str) : Str :=
  match CODE_EXTENSIONS.find? (fun kv => kv.1 == key) with
  | some kv => kv.2
  | none => "unknown".data

/-- The final component of a POSIX path (`PurePath.name` for a normalized
path without trailing slash): the characters after the last `/`. -/
def lastComponent (p : Str) : Str := (p.reverse.takeWhile (fun c => c ≠ '/')).reverse

/-- `PurePath.suffix` of a file name: `name[i:]` for `i = name.rfind('.')`
when `0 < i < len(name) - 1`, else the empty string (the CPython rule). -/
def suffixOfName (name : Str) : Str :=
  let revExt := name.reverse.takeWhile (fun c => c ≠ '.')
  if revExt.length = name.length then []
  else if revExt.isEmpty then []
  else if name.length - 1 - revExt.length = 0 then []
  else '.' :: revExt.reverse

/-- `get_language` (lines 73-74): look the lower-cased suffix up in
`CODE_EXTENSIONS`, defaulting to `"unknown"`.  A total function: it cannot
fail. -/
def get_language (p : Str) : Str := lookupTag (lowerStr (suffixOfName (lastComponent p)))

/-- `MAX_LINE_LENGTH` (line 63). -/
def MAX_LINE_LENGTH : Nat := 120

/-- `MAX_FUNCTION_LINES` (line 64). -/
def MAX_FUNCTION_LINES : Nat := 50

/-- `MAX_FILE_LINES` (line 65). -/
def MAX_FILE_LINES : Nat := 500

/-- `MAX_COMPLEXITY` (line 66). -/
def MAX_COMPLEXITY : Nat := 10

def catLineLen : Str := "行长度".data

def msgLineLen (n : Nat) : Str :=
  "发现 ".data ++ natStr n ++ " 行超过 ".data ++ natStr MAX_LINE_LENGTH ++ " 字符".data

def suggLineLen : Str :=
  "建议将长行拆分，保持每行不超过 ".data ++ natStr MAX_LINE_LENGTH ++ " 字符".data

/-- The `long_lines` list built by `check_line_length` (lines 79-84):
`(i, len(line))` for every 1-indexed line longer than the threshold. -/
def longLines (content : Str) : List (Nat × Nat) :=
  ((splitLines content).enumFrom 1).filterMap
    (fun p => if MAX_LINE_LENGTH < p.2.length then some (p.1, p.2.length) else none)

/-- `check_line_length` (lines 77-94): one WARNING citing the first long
line and the count of long lines, or nothing. -/
def check_line_length (content fp : Str) : List QualityIssue :=
  match longLines content with
  | [] => []
  | (i, _) :: _ =>
    [⟨Severity.WARNING, catLineLen, msgLineLen (longLines content).length, fp, i, suggLineLen⟩]

def catFileLen : Str := "文件长度".data

def msgFileLen (n : Nat) : Str :=
  "文件有 ".data ++ natStr n ++ " 行，超过建议的 ".data ++ natStr MAX_FILE_LINES ++ " 行".data

def suggFileLen : Str := "考虑将文件拆分为多个模块".data

/-- `check_file_length` (lines 214-225); the local `line_count` is
`(splitLines content).length`. -/
def check_file_length (content fp : Str) : List QualityIssue :=
  if MAX_FILE_LINES < (splitLines content).length then
    [⟨Severity.WARNING, catFileLen, msgFileLen ((splitLines content).length), fp, 0, suggFileLen⟩]
  else []

/-- Case-insensitive match of a (lowercase) pattern against the start of a
string: embeds matching the literal word of `\bWORD\b` with
`re.IGNORECASE`. -/
def matchCI : Str → Str → Bool
  | [], _ => true
  | _ :: _, [] => false
  | w :: ws, c :: cs => asciiLower c = w && matchCI ws cs

/-- The word matches at the head of `s` and the following character (if
any) is not a word character (the trailing `\b`). -/
def hasWordAt (w s : Str) : Bool :=
  matchCI w s &&
    (match s.drop w.length with
     | [] => true
     | c :: _ => !isWordChar c)

/-- Scan for `\bWORD\b` (case-insensitive) anywhere in the string; `prev`
is the character before the current position (for the leading `\b`). -/
def hasWordCIAux (w : Str) : Option Char → Str → Bool
  | _, [] => false
  | prev, c :: cs =>
    ((match prev with
      | none => true
      | some p => !isWordChar p) && hasWordAt w (c :: cs))
    || hasWordCIAux w (some c) cs

/-- `re.search(r"\bWORD\b", line, re.IGNORECASE) is not None` for a
lowercase word pattern `w`. -/
def hasWordCI (w s : Str) : Bool := hasWordCIAux w none s

def wordTodo : Str := "todo".data

def wordFixme : Str := "fixme".data

def catFixme : Str := "FIXME".data

def catTodo : Str := "TODO".data

def msgFixme (n : Nat) : Str := "发现 ".data ++ natStr n ++ " 个 FIXME 注释".data

def suggFixme : Str := "FIXME 表示需要修复的问题，建议尽快处理".data

def msgTodo (n : Nat) : Str := "发现 ".data ++ natStr n ++ " 个 TODO 注释".data

def suggTodo : Str := "建议将 TODO 转化为具体的任务跟踪".data

/-- The `fixmes` list of `check_todo_fixme` (lines 183-191): 1-indexed
numbers of the lines containing the standalone word FIXME. -/
def fixmeLineNos (content : Str) : List Nat :=
  (((splitLines content).enumFrom 1).filter (fun p => hasWordCI wordFixme p.2)).map
    (fun p => p.1)

/-- The `todos` list of `check_todo_fixme`. -/
def todoLineNos (content : Str) : List Nat :=
  (((splitLines content).enumFrom 1).filter (fun p => hasWordCI wordTodo p.2)).map
    (fun p => p.1)

/-- `check_todo_fixme` (lines 181-211): a WARNING `FIXME` issue citing the
first FIXME line, then an INFO `TODO` issue citing the first TODO line,
each only when present. -/
def check_todo_fixme (content fp : Str) : List QualityIssue :=
  (match fixmeLineNos content with
   | [] => []
   | i :: _ =>
     [⟨Severity.WARNING, catFixme, msgFixme (fixmeLineNos content).length, fp, i, suggFixme⟩])
  ++
  (match todoLineNos content with
   | [] => []
   | i :: _ =>
     [⟨Severity.INFO, catTodo, msgTodo (todoLineNos content).length, fp, i, suggTodo⟩])

/-- `str.strip()`: drop ASCII whitespace from both ends. -/
def strip (s : Str) : Str :=
  ((s.dropWhile isSpaceChar).reverse.dropWhile isSpaceChar).reverse

/-- The tuple passed to `startswith` on line 230. -/
def commentStarts : List Str := ["#".data, "//".data, "*".data, "/*".data]

def isCommentLine (s : Str) : Bool := commentStarts.any (fun p => p.isPrefixOf s)

/-- The `lines` list of `check_duplicate_code` (line 230): stripped lines
that are non-empty and do not start with a comment marker. -/
def strippedCodeLines (content : Str) : List Str :=
  (splitLines content).filterMap (fun l =>
    let s := strip l
    if !s.isEmpty && !isCommentLine s then some s else none)

def catDup : Str := "重复代码".data

def msgDup (n : Nat) : Str := "发现 ".data ++ natStr n ++ " 处可能的重复代码".data

def suggDup : Str := "考虑提取重复代码为函数或常量".data

/-- The distinct lines counted as duplicates by `check_duplicate_code`
(lines 235-240): length > 20 and occurring at least 3 times.  (The dict
insertion order of the source only affects the unused ordering of the
entries, not their number.) -/
def dupCandidates (content : Str) : List Str :=
  let longs := (strippedCodeLines content).filter (fun l => 20 < l.length)
  longs.dedup.filter (fun l => 3 ≤ longs.count l)

/-- `check_duplicate_code` (lines 228-249): nothing when fewer than 10
stripped code lines; otherwise one INFO issue when any long line repeats
at least 3 times. -/
def check_duplicate_code (content fp : Str) : List QualityIssue :=
  if (strippedCodeLines content).length < 10 then []
  else
    match dupCandidates content with
    | [] => []
    | _ :: _ => [⟨Severity.INFO, catDup, msgDup (dupCandidates content).length, fp, 0, suggDup⟩]

/-- The Python entry of `function_patterns` (line 100):
`re.search(r"^\s*def\s+(\w+)\s*\(", line)`, returning the captured name.
The `^` anchor means the pattern can only match at the start of the line;
all character classes are deterministic here, so no backtracking is
needed. -/
def pythonDefMatch (line : Str) : Option Str :=
  match line.dropWhile isSpaceChar with
  | 'd' :: 'e' :: 'f' :: c :: r =>
    if isSpaceChar c then
      let afterSpaces := r.dropWhile isSpaceChar
      let name := afterSpaces.takeWhile isWordChar
      if name.isEmpty then none
      else
        match (afterSpaces.dropWhile isWordChar).dropWhile isSpaceChar with
        | '(' :: _ => some name
        | _ => none
    else none
  | _ => none

/-- The loop state of `check_function_length` (lines 115-118). -/
structure FLState where
  in_function : Bool
  function_name : Str
  function_start : Nat
  brace_count : Int
  long_functions : List (Str × Nat × Nat)

/-- The loop state before the first line. -/
def initFL : FLState := ⟨false, [], 0, 0, []⟩

/-- `line.count("{") - line.count("}")` (lines 129 and 131). -/
def braceDelta (l : Str) : Int :=
  (l.count (Char.ofNat 123) : Int) - (l.count (Char.ofNat 125) : Int)

/-- One iteration of the scanning loop of `check_function_length`
(lines 120-135). -/
def flStep (matcher : Str → Option Str) (isPython : Bool) (i : Nat) (st : FLState)
    (line : Str) : FLState :=
  match matcher line with
  | some name =>
    let lf :=
      if st.in_function && decide (MAX_FUNCTION_LINES < i - st.function_start) then
        st.long_functions ++ [(st.function_name, st.function_start, i - st.function_start)]
      else st.long_functions
    ⟨true, name, i, braceDelta line, lf⟩
  | none =>
    if st.in_function then
      let bc := st.brace_count + braceDelta line
      if decide (bc ≤ 0) && !isPython then
        let lf :=
          if MAX_FUNCTION_LINES < i - st.function_start then
            st.long_functions ++ [(st.function_name, st.function_start, i - st.function_start)]
          else st.long_functions
        ⟨false, st.function_name, st.function_start, bc, lf⟩
      else ⟨true, st.function_name, st.function_start, bc, st.long_functions⟩
    else st

/-- The scanning loop of `check_function_length`, lines enumerated from 1. -/
def flRun (matcher : Str → Option Str) (isPython : Bool) : Nat → FLState → List Str → FLState
  | _, st, [] => st
  | i, st, l :: ls => flRun matcher isPython (i + 1) (flStep matcher isPython i st l) ls

def catFnLen : Str := "函数长度".data

def fnLenMsg (name : Str) (len : Nat) : Str :=
  "函数 ".data ++ [quoteChar] ++ name ++ [quoteChar] ++ " 有 ".data ++ natStr len
    ++ " 行，超过建议的 ".data ++ natStr MAX_FUNCTION_LINES ++ " 行".data

def suggFnLen : Str := "考虑将函数拆分为更小的、职责单一的函数".data

/-- Dispatch on `function_patterns` (lines 99-110).  The Python pattern is
embedded exactly (`pythonDefMatch`).  The five other languages' signature
patterns determine only which lines look like function signatures — never
the severity, category or shape of an emitted issue — so they are passed
in as the parameter `M`; theorems about non-Python behavior quantify over
every `M`. -/
def langFunctionMatcher (M : Str → Str → Option Str) (language : Str) :
    Option (Str → Option Str) :=
  if language == "python".data then some pythonDefMatch
  else if language == "javascript".data || language == "typescript".data
      || language == "go".data || language == "rust".data
      || language == "java".data then
    some (M language)
  else none

/-- `check_function_length` (lines 97-145): run the scanning loop and emit
one WARNING per recorded long function, citing its name and start line. -/
def check_function_length (M : Str → Str → Option Str) (content fp language : Str) :
    List QualityIssue :=
  match langFunctionMatcher M language with
  | none => []
  | some matcher =>
    let final := flRun matcher (language == "python".data) 1 initFL (splitLines content)
    final.long_functions.map (fun t =>
      ⟨Severity.WARNING, catFnLen, fnLenMsg t.1 t.2.2, fp, t.2.1, suggFnLen⟩)

/-- `re.findall` driver: at each position try the position matcher `m`;
on success record the capture and continue after the match, otherwise
advance one character.  The fuel argument is bounded by the input length;
every position matcher used here consumes at least one character, so
`findAll` below runs the scan to completion. -/
def findAllAux (m : Str → Option (Str × Str)) : Nat → Str → List Str
  | 0, _ => []
  | _, [] => []
  | fuel + 1, c :: cs =>
    match m (c :: cs) with
    | some (cap, rest) => cap :: findAllAux m fuel rest
    | none => findAllAux m fuel cs

/-- `re.findall(pattern, content)` for a position matcher `m`. -/
def findAll (m : Str → Option (Str × Str)) (s : Str) : List Str :=
  findAllAux m (s.length + 1) s

/-- Position matcher for `class\s+([a-z]\w*)\s*D` where `D` is the
delimiter class — `[:\(]` for Python (line 153), `[{\(]` for
JavaScript/TypeScript (line 166).  All character classes involved are
disjoint, so the greedy match is deterministic. -/
def matchClassAt (delims : List Char) (s : Str) : Option (Str × Str) :=
  match s with
  | 'c' :: 'l' :: 'a' :: 's' :: 's' :: c :: r =>
    if isSpaceChar c then
      match r.dropWhile isSpaceChar with
      | c1 :: r2 =>
        if 'a' ≤ c1 && c1 ≤ 'z' then
          let name := c1 :: r2.takeWhile isWordChar
          match (r2.dropWhile isWordChar).dropWhile isSpaceChar with
          | d :: r5 => if delims.contains d then some (name, r5) else none
          | [] => none
        else none
      | [] => none
    else none
  | _ => none

/-- Position matcher for `def\s+([A-Z]\w*)\s*\(` (line 159). -/
def matchFuncUpperAt (s : Str) : Option (Str × Str) :=
  match s with
  | 'd' :: 'e' :: 'f' :: c :: r =>
    if isSpaceChar c then
      match r.dropWhile isSpaceChar with
      | c1 :: r2 =>
        if 'A' ≤ c1 && c1 ≤ 'Z' then
          let name := c1 :: r2.takeWhile isWordChar
          match (r2.dropWhile isWordChar).dropWhile isSpaceChar with
          | '(' :: r5 => some (name, r5)
          | _ => none
        else none
      | [] => none
    else none
  | _ => none

def pyClassDelims : List Char := [':', '(']

def jsClassDelims : List Char := [Char.ofNat 123, '(']

def catNaming : Str := "命名规范".data

def msgNaming (n : Nat) : Str := "发现 ".data ++ natStr n ++ " 个命名问题".data

def namingClassMsg (name : Str) : Str :=
  "类名 ".data ++ [quoteChar] ++ name ++ [quoteChar] ++ " 应使用 PascalCase".data

def namingFuncMsg (name : Str) : Str :=
  "函数名 ".data ++ [quoteChar] ++ name ++ [quoteChar] ++ " 应使用 snake_case".data

def joinSemicolon : List Str → Str := List.intercalate ("; ".data)

/-- The `issues` string list of `check_naming_conventions` (lines 150-169).
(The `const_pattern` local on line 158 is assigned and never used in the
source, so it has no embedding.) -/
def namingOffenders (content language : Str) : List Str :=
  if language == "python".data then
    (findAll (matchClassAt pyClassDelims) content).map namingClassMsg
      ++ (findAll matchFuncUpperAt content).filterMap (fun n =>
          if ("_".data).isPrefixOf n then none else some (namingFuncMsg n))
  else if language == "javascript".data || language == "typescript".data then
    (findAll (matchClassAt jsClassDelims) content).map namingClassMsg
  else []

/-- `check_naming_conventions` (lines 148-178): one INFO issue aggregating
up to the first three offenders. -/
def check_naming_conventions (content fp language : Str) : List QualityIssue :=
  match namingOffenders content language with
  | [] => []
  | _ :: _ =>
    [⟨Severity.INFO, catNaming, msgNaming (namingOffenders content language).length, fp, 0,
      joinSemicolon ((namingOffenders content language).take 3)
        ++ (if 3 < (namingOffenders content language).length then "...".data else [])⟩]

def catScanErr : Str := "扫描错误".data

def msgScanErr (e : Str) : Str := "无法扫描文件: ".data ++ e

/-- A source file as dispatched to `scan_file`: its path and the outcome
of reading its text (`Except.error e` embeds `read_text` raising an
exception rendered as `e`).  Directory walking, extension filtering and
`SKIP_DIRS` exclusion happen in the external walker (lines 283-303); the
file list below is the eligible files in dispatch order. -/
structure SrcFile where
  path : Str
  read : Except Str Str

/-- `scan_file` (lines 252-272): run the six checks in source order on the
file's content; a raised exception is caught and becomes a single INFO
`扫描错误` (scan error) issue. -/
def scan_file (M : Str → Str → Option Str) (f : SrcFile) : List QualityIssue :=
  match f.read with
  | Except.error e => [⟨Severity.INFO, catScanErr, msgScanErr e, f.path, 0, []⟩]
  | Except.ok content =>
    let language := get_language f.path
    check_line_length content f.path
      ++ check_file_length content f.path
      ++ check_function_length M content f.path language
      ++ check_naming_conventions content f.path language
      ++ check_todo_fixme content f.path
      ++ check_duplicate_code content f.path

/-- The `metrics` dict set by `scan_directory` (lines 307-311). -/
structure ScanMetrics where
  files_scanned : Nat
  total_lines : Nat
  issues_found : Nat
deriving DecidableEq, Repr

/-- `len(path.read_text(...).split("\n"))` guarded by `try/except: pass`
(lines 287-290): a failing read contributes zero lines. -/
def fileLineCount (f : SrcFile) : Nat :=
  match f.read with
  | Except.ok c => (splitLines c).length
  | Except.error _ => 0

/-- `scan_directory` (lines 275-311) restricted to its per-file loop:
`scan_file` each eligible file into the report, increment `file_count`
for every eligible file, and add the line count of every readable file. -/
def scan_directory (M : Str → Str → Option Str) (files : List SrcFile) :
    QualityReport × ScanMetrics :=
  let report := files.foldl (fun r f => (scan_file M f).foldl add_issue r) freshReport
  (report, ⟨files.length, (files.map fileLineCount).sum, report.issues.length⟩)

/-- The exit code computed by `main` (line 436) for an existing target:
`0 if report.passed else 1`. -/
def main_exit (M : Str → Str → Option Str) (files : List SrcFile) : Nat :=
  if (scan_directory M files).1.passed then 0 else 1

/- ------------------------------------------------------------------ -/
/- Demo inputs used by witnesses and counterexamples.                  -/
/- ------------------------------------------------------------------ -/

/-- A file whose read fails. -/
def demoBadFile : SrcFile := ⟨"bad.py".data, Except.error ("boom".data)⟩

/-- A small readable file. -/
def demoOkFile : SrcFile := ⟨"ok.py".data, Except.ok ("x = 1".data)⟩

/-- A second small readable file. -/
def demoOkFile2 : SrcFile := ⟨"ok2.js".data, Except.ok ("var x = 1;".data)⟩

/-- A matcher assignment providing no signature patterns; used where the
non-Python patterns are irrelevant. -/
def noMatchers : Str → Str → Option Str := fun _ _ => none

def pyTag : Str := "python".data

/-- A Python file whose single function spans 61 lines and is the last
function of the file. -/
def demoC4 : Str :=
  List.intercalate ['\n']
    ("def long_function():".data :: List.replicate 60 "    x = 1".data)

/-- A Python file with a 51-line function followed by a second function
signature, so the first function's length is detected. -/
def demoC4W : Str :=
  List.intercalate ['\n']
    ("def f():".data ::
      (List.replicate 50 "    x = 1".data ++ ["def g():".data, "    y = 2".data]))

def demoFp : Str := "demo.py".data

/-- Two lines, the second 130 characters long, for the C5 witness. -/
def demoC5 : Str := "short".data ++ '\n' :: List.replicate 130 'a'

/-- First line holds a FIXME, second line a TODO, for the C10 witness. -/
def demoC10 : Str := "x = 1  # FIXME later".data ++ '\n' :: "# TODO: write tests".data

/-- A 21-character line repeated three times: the duplicate-code trigger
condition holds, but the file has fewer than 10 stripped lines. -/
def demoC6 : Str := List.intercalate ['\n'] (List.replicate 3 (List.replicate 21 'a'))

/-- Ten stripped code lines, three of which are the same 21-character
line, for the C6 amended witness. -/
def demoC6W : Str :=
  List.intercalate ['\n']
    (List.replicate 3 (List.replicate 21 'a') ++
      ["y0 = 0".data, "y1 = 1".data, "y2 = 2".data, "y3 = 3".data,
       "y4 = 4".data, "y5 = 5".data, "y6 = 6".data])

/-- An ERROR issue used by the C1 witness. -/
def demoErrIssue : QualityIssue :=
  ⟨Severity.ERROR, "e".data, "m".data, "f".data, 2, []⟩

/-- A list of issues containing one ERROR, for the C1 witness. -/
def demoIssuesC1 : List QualityIssue :=
  [⟨Severity.WARNING, "w".data, "m".data, "f".data, 1, []⟩, demoErrIssue]

/- ------------------------------------------------------------------ -/
/- Spec-modelled exact structural analyzer (C2, C3).                   -/
/- The AST-based analyzer quality_checker.py (class PythonAnalyzer,    -/
/- function analyze_python_file) is code of this repository that is    -/
/- not under src/ — only its tests are.  The definitions below are     -/
/- modelled from spec sections 4.2, 4.5 and 7.                         -/
/- ------------------------------------------------------------------ -/

/-- Modelled from the spec: expressions of the exactly-parseable
language, reduced to what spec section 4.2 counts — each `and`/`or`
operator occurrence and each conditional expression is a decision point;
`compound` stands for any other compound expression and `atom` for any
leaf. -/
inductive PyExpr where
  | atom : PyExpr
  | boolAnd : PyExpr → PyExpr → PyExpr
  | boolOr : PyExpr → PyExpr → PyExpr
  | condExp : PyExpr → PyExpr → PyExpr → PyExpr
  | compound : PyExpr → PyExpr → PyExpr

mutual
/-- Modelled from the spec: statements of the exactly-parseable language
(`PythonAnalyzer` is not under `src/`).  An `elif` chain is the nested
`ifStmt` in the else block, so each `if`/`elif` branch is one `ifStmt`
node; `tryStmt` carries one block per exception handler clause. -/
inductive PyStmt where
  | simpleStmt : PyExpr → PyStmt
  | passStmt : PyStmt
  | ifStmt : PyExpr → PyBlock → PyBlock → PyStmt
  | forStmt : PyExpr → PyBlock → PyBlock → PyStmt
  | whileStmt : PyExpr → PyBlock → PyBlock → PyStmt
  | tryStmt : PyBlock → PyHandlers → PyBlock → PyBlock → PyStmt
  | funcDef : Str → Nat → PyBlock → PyStmt
  | classDef : Str → PyBlock → PyStmt
/-- Modelled from the spec: a statement sequence (function or suite
body). -/
inductive PyBlock where
  | nil : PyBlock
  | cons : PyStmt → PyBlock → PyBlock
/-- Modelled from the spec: the exception handler clauses of a `try`
statement, one block per clause. -/
inductive PyHandlers where
  | nil : PyHandlers
  | cons : PyBlock → PyHandlers → PyHandlers
end

/-- Modelled from the spec: decision points inside an expression — one
per `and`/`or` occurrence and per conditional expression. -/
def exprDP : PyExpr → Nat
  | .atom => 0
  | .boolAnd a b => 1 + exprDP a + exprDP b
  | .boolOr a b => 1 + exprDP a + exprDP b
  | .condExp c t e => 1 + exprDP c + exprDP t + exprDP e
  | .compound a b => exprDP a + exprDP b

mutual
/-- Modelled from the spec: the decision points the analyzer's visitor
accumulates for one statement — 1 per `if`/`elif` branch, loop, and
handler clause, plus the expression decision points. -/
def stmtDP : PyStmt → Nat
  | .simpleStmt e => exprDP e
  | .passStmt => 0
  | .ifStmt c t e => 1 + exprDP c + blockDP t + blockDP e
  | .forStmt it b e => 1 + exprDP it + blockDP b + blockDP e
  | .whileStmt c b e => 1 + exprDP c + blockDP b + blockDP e
  | .tryStmt b hs e f => blockDP b + handlersDP hs + blockDP e + blockDP f
  | .funcDef _ _ b => blockDP b
  | .classDef _ b => blockDP b
/-- Modelled from the spec: decision points of a block. -/
def blockDP : PyBlock → Nat
  | .nil => 0
  | .cons s t => stmtDP s + blockDP t
/-- Modelled from the spec: decision points of handler clauses — 1 per
clause plus its body's points. -/
def handlersDP : PyHandlers → Nat
  | .nil => 0
  | .cons b t => 1 + blockDP b + handlersDP t
end

/-- Modelled from the spec (section 4.2): cyclomatic complexity of a
function body, `1 + Σ(decision points)` as the visitor accumulates it. -/
def complexity (body : PyBlock) : Nat := 1 + blockDP body

/-- Modelled from the spec: flatten an expression to its nodes, `true`
marking a decision node (an `ast.walk`-style enumeration). -/
def exprNodes : PyExpr → List Bool
  | .atom => [false]
  | .boolAnd a b => true :: (exprNodes a ++ exprNodes b)
  | .boolOr a b => true :: (exprNodes a ++ exprNodes b)
  | .condExp c t e => true :: (exprNodes c ++ exprNodes t ++ exprNodes e)
  | .compound a b => false :: (exprNodes a ++ exprNodes b)

mutual
/-- Modelled from the spec: flatten a statement to its nodes, `true`
marking a decision node. -/
def stmtNodes : PyStmt → List Bool
  | .simpleStmt e => false :: exprNodes e
  | .passStmt => [false]
  | .ifStmt c t e => true :: (exprNodes c ++ blockNodes t ++ blockNodes e)
  | .forStmt it b e => true :: (exprNodes it ++ blockNodes b ++ blockNodes e)
  | .whileStmt c b e => true :: (exprNodes c ++ blockNodes b ++ blockNodes e)
  | .tryStmt b hs e f =>
    false :: (blockNodes b ++ handlerNodes hs ++ blockNodes e ++ blockNodes f)
  | .funcDef _ _ b => false :: blockNodes b
  | .classDef _ b => false :: blockNodes b
/-- Modelled from the spec: flatten a block to its nodes. -/
def blockNodes : PyBlock → List Bool
  | .nil => []
  | .cons s t => stmtNodes s ++ blockNodes t
/-- Modelled from the spec: flatten handler clauses to nodes; each clause
itself is a decision node. -/
def handlerNodes : PyHandlers → List Bool
  | .nil => []
  | .cons b t => true :: (blockNodes b ++ handlerNodes t)
end

/-- Modelled from the spec: the number of decision points in a function
body, counted over the flattened node enumeration (the notion the claim
compares complexity against). -/
def decisionCount (body : PyBlock) : Nat := (blockNodes body).count true

/-- The top-level statements of a block, as a list. -/
def blockStmts : PyBlock → List PyStmt
  | .nil => []
  | .cons s t => s :: blockStmts t

/-- Modelled from the spec: a FunctionRecord — name, declared parameter
count, body and the computed complexity. -/
structure FunctionRecord where
  name : Str
  params : Nat
  body : PyBlock
  cc : Nat

mutual
/-- Modelled from the spec: collect a FunctionRecord for every function
definition (top-level or nested) whose name does not start with an
underscore, traversing every node. -/
def collectStmt : PyStmt → List FunctionRecord
  | .funcDef n p b =>
    (if ("_".data).isPrefixOf n then [] else [⟨n, p, b, complexity b⟩]) ++ collectBlock b
  | .classDef _ b => collectBlock b
  | .ifStmt _ t e => collectBlock t ++ collectBlock e
  | .forStmt _ b e => collectBlock b ++ collectBlock e
  | .whileStmt _ b e => collectBlock b ++ collectBlock e
  | .tryStmt b hs e f =>
    collectBlock b ++ collectHandlers hs ++ collectBlock e ++ collectBlock f
  | .simpleStmt _ => []
  | .passStmt => []
/-- Modelled from the spec: collect records over a block. -/
def collectBlock : PyBlock → List FunctionRecord
  | .nil => []
  | .cons s t => collectStmt s ++ collectBlock t
/-- Modelled from the spec: collect records over handler clauses. -/
def collectHandlers : PyHandlers → List FunctionRecord
  | .nil => []
  | .cons b t => collectBlock b ++ collectHandlers t
end

def catSyntaxError : Str := "syntax error".data

def catComplexity : Str := "complexity".data

/-- Modelled from the spec: a complexity WARNING citing the function
name. -/
def msgComplexity (name : Str) (cc : Nat) : Str :=
  name ++ ": complexity ".data ++ natStr cc

/-- Modelled from the spec (sections 4.2, 4.5 and 7): the exact
structural analyzer, dispatching on the parse outcome.  On parse failure
it emits exactly one ERROR issue of category `syntax error` carrying the
parser's message and reported line, with an empty FunctionRecord set; on
success it collects the FunctionRecords and emits one complexity WARNING
per function whose complexity exceeds the threshold. -/
def analyze (fp : Str) : Except (Str × Nat) PyBlock → List QualityIssue × List FunctionRecord
  | Except.error pe =>
    ([⟨Severity.ERROR, catSyntaxError, pe.1, fp, pe.2, []⟩], [])
  | Except.ok mod =>
    let recs := collectBlock mod
    ((recs.filter (fun r => MAX_COMPLEXITY < r.cc)).map
      (fun r => ⟨Severity.WARNING, catComplexity, msgComplexity r.name r.cc, fp, 0, []⟩),
     recs)

/-- Three sequential non-nested `if` statements, for the C2 witness. -/
def demoSeqIfs : PyBlock :=
  PyBlock.cons (PyStmt.ifStmt PyExpr.atom (PyBlock.cons PyStmt.passStmt PyBlock.nil) PyBlock.nil)
    (PyBlock.cons (PyStmt.ifStmt PyExpr.atom (PyBlock.cons PyStmt.passStmt PyBlock.nil) PyBlock.nil)
      (PyBlock.cons (PyStmt.ifStmt PyExpr.atom (PyBlock.cons PyStmt.passStmt PyBlock.nil) PyBlock.nil)
        PyBlock.nil))

/- ================================================================== -/
/- Theorems.                                                           -/
/- ================================================================== -/

theorem addIssue_fold_issues (issues : List QualityIssue) (r : QualityReport) :
    (issues.foldl add_issue r).issues = r.issues ++ issues := by
  induction issues generalizing r with
  | nil => simp
  | cons i t ih => simp [add_issue, ih]

theorem addIssue_fold_passed (issues : List QualityIssue) (r : QualityReport) :
    (issues.foldl add_issue r).passed
      = (r.passed && !(issues.any (fun i => i.severity == Severity.ERROR))) := by
  induction issues generalizing r with
  | nil => simp
  | cons i t ih =>
    simp only [List.foldl_cons, ih, List.any_cons, Bool.not_or, add_issue]
    by_cases h : i.severity = Severity.ERROR
    · simp [h]
    · have hb : (i.severity == Severity.ERROR) = false := beq_eq_false_iff_ne.mpr h
      simp [h, hb]

/-- Claim C1: for every quality report built by a sequence of `add_issue`
calls starting from a fresh report, the issue list is exactly the sequence
of added issues, and `passed` is true iff no issue in that list has
severity ERROR (so WARNING/INFO issues never change `passed`, and `passed`
cannot drift out of sync with the issue list). -/
theorem report_passed_iff_no_error (issues : List QualityIssue) :
    (issues.foldl add_issue freshReport).issues = issues ∧
    ((issues.foldl add_issue freshReport).passed = true ↔
      ∀ i ∈ issues, i.severity ≠ Severity.ERROR) := by
  constructor
  · simpa using addIssue_fold_issues issues freshReport
  · rw [addIssue_fold_passed]
    simp [freshReport, List.any_eq_true]

/-- Witness for C1 at a concrete issue sequence containing one ERROR:
the built report is not passed. -/
theorem report_passed_iff_no_error_witness :
    (demoIssuesC1.foldl add_issue freshReport).passed ≠ true := by
  intro hp
  exact ((report_passed_iff_no_error demoIssuesC1).2.mp hp demoErrIssue
    (by simp [demoIssuesC1])) rfl

theorem asciiLower_eq_dot (c : Char) : (asciiLower c = '.') ↔ (c = '.') := by
  unfold asciiLower
  split <;> simp_all

theorem asciiLower_eq_slash (c : Char) : (asciiLower c = '/') ↔ (c = '/') := by
  unfold asciiLower
  split <;> simp_all

theorem lastComponent_lower (p : Str) :
    lastComponent (lowerStr p) = lowerStr (lastComponent p) := by
  unfold lastComponent lowerStr
  rw [← List.map_reverse, List.takeWhile_map]
  have hpred : ((fun c => decide (c ≠ '/')) ∘ asciiLower) = fun c => decide (c ≠ '/') := by
    funext c
    simp [Function.comp, asciiLower_eq_slash]
  rw [hpred, List.map_reverse]

theorem suffixOfName_lower (name : Str) :
    suffixOfName (lowerStr name) = lowerStr (suffixOfName name) := by
  unfold suffixOfName lowerStr
  rw [← List.map_reverse, List.takeWhile_map]
  have hpred : ((fun c => decide (c ≠ '.')) ∘ asciiLower) = fun c => decide (c ≠ '.') := by
    funext c
    simp [Function.comp, asciiLower_eq_dot]
  rw [hpred]
  simp only [List.length_map, List.isEmpty_eq_true, List.map_eq_nil_iff]
  split
  · simp
  · split
    · simp
    · split
      · simp
      · simp only [List.map_reverse, List.map_cons]
        rw [show asciiLower '.' = '.' from by decide]

/-- Claim C8: `get_language` is a pure total function of the path that is
extension-case-insensitive: any two paths equal up to ASCII case classify
to the same language tag, and in particular `Main.PY` and `main.py` both
classify as `python`. -/
theorem get_language_case_insensitive :
    (∀ p q : Str, lowerStr p = lowerStr q → get_language p = get_language q) ∧
    get_language ("Main.PY".data) = "python".data ∧
    get_language ("main.py".data) = "python".data := by
  refine ⟨?_, by decide, by decide⟩
  intro p q h
  unfold get_language
  have key : ∀ r : Str, lowerStr (suffixOfName (lastComponent r))
      = suffixOfName (lastComponent (lowerStr r)) := by
    intro r
    rw [lastComponent_lower, suffixOfName_lower]
  rw [key p, key q, h]

/-- Witness for C8: the case-insensitivity hypothesis discharged at the
concrete pair `Main.PY` / `main.py`. -/
theorem get_language_case_insensitive_witness :
    get_language ("Main.PY".data) = get_language ("main.py".data) :=
  get_language_case_insensitive.1 ("Main.PY".data) ("main.py".data) (by decide)


theorem filterMap_dite_eq {α β : Type} (P : α → Prop) [DecidablePred P] (g : α → β)
    (l : List α) :
    l.filterMap (fun a => if P a then some (g a) else none)
      = (l.filter (fun a => decide (P a))).map g := by
  induction l with
  | nil => rfl
  | cons a t ih =>
    by_cases h : P a <;> simp [List.filterMap_cons, List.filter_cons, h, ih]

theorem enumFrom_filter_length {α : Type} (P : α → Bool) (l : List α) (n : Nat) :
    ((l.enumFrom n).filter (fun p => P p.2)).length = (l.filter P).length := by
  induction l generalizing n with
  | nil => rfl
  | cons a t ih =>
    by_cases h : P a <;> simp [List.enumFrom, List.filter_cons, h, ih]

theorem enumFrom_filter_head {α : Type} (P : α → Bool) (l : List α) :
    ∀ (n k : Nat) (hk : k < l.length),
      P (l.get ⟨k, hk⟩) = true →
      (∀ x ∈ l.take k, P x = false) →
      ∃ t, (l.enumFrom n).filter (fun p => P p.2) = (n + k, l.get ⟨k, hk⟩) :: t := by
  induction l with
  | nil =>
    intro n k hk
    exact absurd hk (by simp)
  | cons a tl ih =>
    intro n k hk hP hmin
    cases k with
    | zero =>
      refine ⟨((tl.enumFrom (n + 1)).filter (fun p => P p.2)), ?_⟩
      simp [List.enumFrom, List.filter_cons, show P a = true from hP]
    | succ k' =>
      have ha : P a = false := hmin a (by simp [List.take_cons])
      have hk' : k' < tl.length := Nat.lt_of_succ_lt_succ hk
      obtain ⟨t, ht⟩ := ih (n + 1) k' hk' hP
        (fun x hx => hmin x (by simp [List.take_cons, hx]))
      refine ⟨t, ?_⟩
      simp only [List.enumFrom, List.filter_cons, ha, Bool.false_eq_true, if_false]
      rw [ht]
      congr 2
      omega

theorem longLines_eq (content : Str) :
    longLines content =
      (((splitLines content).enumFrom 1).filter
        (fun p => decide (MAX_LINE_LENGTH < p.2.length))).map
        (fun p => (p.1, p.2.length)) := by
  unfold longLines
  exact filterMap_dite_eq _ _ _

/-- Claim C5: when some line of the content is longer than 120 characters,
`check_line_length` emits exactly one WARNING whose line number is the
first offending line and whose message reports the total number of
offending lines; when no line is longer than 120 characters it emits
nothing. -/
theorem line_length_spec (content fp : Str) :
    ((∀ l ∈ splitLines content, l.length ≤ MAX_LINE_LENGTH) →
      check_line_length content fp = []) ∧
    (∀ k (hk : k < (splitLines content).length),
      MAX_LINE_LENGTH < ((splitLines content).get ⟨k, hk⟩).length →
      (∀ l ∈ (splitLines content).take k, l.length ≤ MAX_LINE_LENGTH) →
      check_line_length content fp =
        [⟨Severity.WARNING, catLineLen,
          msgLineLen (((splitLines content).filter
            (fun l => MAX_LINE_LENGTH < l.length)).length),
          fp, 1 + k, suggLineLen⟩]) := by
  constructor
  · intro hall
    have hempty : longLines content = [] := by
      rw [longLines_eq]
      have h0 : ((splitLines content).enumFrom 1).filter
          (fun p => decide (MAX_LINE_LENGTH < p.2.length)) = [] := by
        rw [List.filter_eq_nil_iff]
        intro p hp
        simp only [decide_eq_true_eq, Nat.not_lt]
        obtain ⟨-, -, h3⟩ := List.mem_enumFrom hp
        rw [h3]
        exact hall _ (List.getElem_mem _)
      rw [h0, List.map_nil]
    unfold check_line_length
    rw [hempty]
  · intro k hk hbig hmin
    obtain ⟨t, ht⟩ := enumFrom_filter_head
      (fun l : Str => decide (MAX_LINE_LENGTH < l.length)) (splitLines content) 1 k hk
      (by simpa using hbig)
      (fun x hx => by simpa using Nat.not_lt.mpr (hmin x hx))
    have hcons : longLines content =
        (1 + k, ((splitLines content).get ⟨k, hk⟩).length)
          :: t.map (fun p => (p.1, p.2.length)) := by
      rw [longLines_eq, ht, List.map_cons]
    have hlen : (longLines content).length =
        ((splitLines content).filter (fun l => MAX_LINE_LENGTH < l.length)).length := by
      rw [longLines_eq, List.length_map]
      exact enumFrom_filter_length (fun l : Str => decide (MAX_LINE_LENGTH < l.length))
        (splitLines content) 1
    unfold check_line_length
    rw [← hlen, hcons]

set_option maxRecDepth 4096 in
/-- Witness for C5 at a two-line file whose second line has length 130:
one WARNING, citing line 2 and a count of one offending line. -/
theorem line_length_spec_witness :
    check_line_length demoC5 demoFp =
      [⟨Severity.WARNING, catLineLen,
        msgLineLen (((splitLines demoC5).filter
          (fun l => MAX_LINE_LENGTH < l.length)).length),
        demoFp, 1 + 1, suggLineLen⟩] :=
  (line_length_spec demoC5 demoFp).2 1 (by decide) (by decide) (by decide)

/-- Claim C10: content containing the standalone word FIXME
(case-insensitively) on some line makes `check_todo_fixme` emit a WARNING
issue of category `FIXME` citing the first such line, and content
containing the standalone word TODO likewise yields an INFO issue of
category `TODO` citing its first occurrence. -/
theorem todo_fixme_spec (content fp : Str) :
    (∀ k (hk : k < (splitLines content).length),
      hasWordCI wordFixme ((splitLines content).get ⟨k, hk⟩) = true →
      (∀ l ∈ (splitLines content).take k, hasWordCI wordFixme l = false) →
      ∃ i ∈ check_todo_fixme content fp,
        i.severity = Severity.WARNING ∧ i.category = catFixme ∧ i.line = 1 + k) ∧
    (∀ k (hk : k < (splitLines content).length),
      hasWordCI wordTodo ((splitLines content).get ⟨k, hk⟩) = true →
      (∀ l ∈ (splitLines content).take k, hasWordCI wordTodo l = false) →
      ∃ i ∈ check_todo_fixme content fp,
        i.severity = Severity.INFO ∧ i.category = catTodo ∧ i.line = 1 + k) := by
  constructor
  · intro k hk hP hmin
    obtain ⟨t, ht⟩ := enumFrom_filter_head
      (fun l : Str => hasWordCI wordFixme l) (splitLines content) 1 k hk hP hmin
    have hfix : fixmeLineNos content = (1 + k) :: t.map (fun p => p.1) := by
      unfold fixmeLineNos
      rw [ht, List.map_cons]
    refine ⟨⟨Severity.WARNING, catFixme, msgFixme (fixmeLineNos content).length,
      fp, 1 + k, suggFixme⟩, ?_, rfl, rfl, rfl⟩
    unfold check_todo_fixme
    rw [hfix]
    exact List.mem_append_left _ (by simp)
  · intro k hk hP hmin
    obtain ⟨t, ht⟩ := enumFrom_filter_head
      (fun l : Str => hasWordCI wordTodo l) (splitLines content) 1 k hk hP hmin
    have htodo : todoLineNos content = (1 + k) :: t.map (fun p => p.1) := by
      unfold todoLineNos
      rw [ht, List.map_cons]
    refine ⟨⟨Severity.INFO, catTodo, msgTodo (todoLineNos content).length,
      fp, 1 + k, suggTodo⟩, ?_, rfl, rfl, rfl⟩
    unfold check_todo_fixme
    rw [htodo]
    exact List.mem_append_right _ (by simp)

set_option maxRecDepth 4096 in
/-- Witness for C10: a FIXME on the first line gives a WARNING citing
line 1, and a TODO on the second line gives an INFO citing line 2. -/
theorem todo_fixme_spec_witness :
    (∃ i ∈ check_todo_fixme demoC10 demoFp,
      i.severity = Severity.WARNING ∧ i.category = catFixme ∧ i.line = 1 + 0) ∧
    (∃ i ∈ check_todo_fixme demoC10 demoFp,
      i.severity = Severity.INFO ∧ i.category = catTodo ∧ i.line = 1 + 1) :=
  ⟨(todo_fixme_spec demoC10 demoFp).1 0 (by decide) (by decide) (by decide),
   (todo_fixme_spec demoC10 demoFp).2 1 (by decide) (by decide) (by decide)⟩

set_option maxRecDepth 4096 in
/-- Counterexample to C6 as stated: `demoC6` consists of three copies of
one 21-character line — a normalized line of length > 20 occurring at
least 3 times — yet `check_duplicate_code` emits no issue, because the
source returns early for files with fewer than 10 stripped lines. -/
theorem duplicate_code_claim_false :
    (∃ l ∈ strippedCodeLines demoC6,
      20 < l.length ∧ 3 ≤ (strippedCodeLines demoC6).count l) ∧
    check_duplicate_code demoC6 demoFp = [] := by
  constructor
  · exact ⟨List.replicate 21 'a', by decide, by decide, by decide⟩
  · decide

/-- Claim C6 amended: when the file has at least 10 stripped
(non-comment, non-blank) lines and some stripped line longer than 20
characters occurs at least 3 times, `check_duplicate_code` emits exactly
one INFO issue of category `重复代码` (duplicate code). -/
theorem duplicate_code_amended (content fp : Str)
    (hlen : 10 ≤ (strippedCodeLines content).length)
    (hdup : ∃ l ∈ strippedCodeLines content,
      20 < l.length ∧ 3 ≤ (strippedCodeLines content).count l) :
    check_duplicate_code content fp =
      [⟨Severity.INFO, catDup, msgDup (dupCandidates content).length, fp, 0, suggDup⟩] := by
  obtain ⟨l, hmem, hlong, hcount⟩ := hdup
  have hmemLongs : l ∈ (strippedCodeLines content).filter (fun x => 20 < x.length) := by
    rw [List.mem_filter]
    exact ⟨hmem, by simpa using hlong⟩
  have hcountLongs :
      3 ≤ ((strippedCodeLines content).filter (fun x => 20 < x.length)).count l := by
    rw [List.count_filter (by simpa using hlong)]
    exact hcount
  have hne : dupCandidates content ≠ [] := by
    unfold dupCandidates
    intro hnil
    have : l ∈ ([] : List Str) := by
      rw [← hnil]
      rw [List.mem_filter]
      exact ⟨List.mem_dedup.mpr hmemLongs, by simpa using hcountLongs⟩
    simp at this
  unfold check_duplicate_code
  rw [if_neg (by omega)]
  match hd : dupCandidates content with
  | [] => exact absurd hd hne
  | x :: xs => rfl

set_option maxRecDepth 8192 in
/-- Witness for the amended C6: ten stripped lines, three of which are the
same 21-character line, produce exactly one INFO duplicate-code issue. -/
theorem duplicate_code_amended_witness :
    check_duplicate_code demoC6W demoFp =
      [⟨Severity.INFO, catDup, msgDup (dupCandidates demoC6W).length, demoFp, 0, suggDup⟩] :=
  duplicate_code_amended demoC6W demoFp (by decide)
    ⟨List.replicate 21 'a', by decide, by decide, by decide⟩

theorem flRun_none_python (matcher : Str → Option Str) (B : List Str) :
    ∀ (i : Nat) (nm : Str) (s : Nat) (bc : Int) (lf : List (Str × Nat × Nat))
      (rest : List Str),
      (∀ l ∈ B, matcher l = none) →
      ∃ bc2, flRun matcher true i ⟨true, nm, s, bc, lf⟩ (B ++ rest)
        = flRun matcher true (i + B.length) ⟨true, nm, s, bc2, lf⟩ rest := by
  induction B with
  | nil =>
    intro i nm s bc lf rest _
    exact ⟨bc, by simp⟩
  | cons l B' ih =>
    intro i nm s bc lf rest hB
    have hl : matcher l = none := hB l (by simp)
    have hstep : flStep matcher true i ⟨true, nm, s, bc, lf⟩ l
        = ⟨true, nm, s, bc + braceDelta l, lf⟩ := by
      simp [flStep, hl]
    obtain ⟨bc2, h2⟩ := ih (i + 1) nm s (bc + braceDelta l) lf rest
      (fun x hx => hB x (by simp [hx]))
    refine ⟨bc2, ?_⟩
    show flRun matcher true (i + 1) (flStep matcher true i ⟨true, nm, s, bc, lf⟩ l)
        (B' ++ rest) = _
    rw [hstep, h2]
    congr 1
    simp
    omega

set_option maxRecDepth 16384 in
/-- Counterexample to C4 as stated: `demoC4` is a Python file whose single
function `long_function` starts at line 1 and spans all 61 lines — well
over the 50-line threshold — yet `check_function_length` emits nothing,
because for Python a function is only recorded when a *later* line matches
the signature pattern, and no line follows the last function. -/
theorem function_length_claim_false :
    pythonDefMatch ("def long_function():".data) = some ("long_function".data) ∧
    (splitLines demoC4).length = 61 ∧
    check_function_length noMatchers demoC4 demoFp pyTag = [] :=
  ⟨by decide, by decide, by decide⟩

/-- Claim C4 amended: a Python function longer than 50 lines produces
exactly one function-length WARNING naming it and citing its start line
*provided a later function-signature line follows it*; the last function
of a Python file is never reported (see the counterexample). Here the file
is `h1`, then `B` (no signature lines), then `h2`, then `C` (no signature
lines): the function starting at line 1 is reported with length
`B.length + 1` when that exceeds the threshold. -/
theorem function_length_amended (M : Str → Str → Option Str) (content fp : Str)
    (h1 h2 f g : Str) (B C : List Str)
    (hsplit : splitLines content = h1 :: (B ++ h2 :: C))
    (hm1 : pythonDefMatch h1 = some f)
    (hm2 : pythonDefMatch h2 = some g)
    (hB : ∀ l ∈ B, pythonDefMatch l = none)
    (hC : ∀ l ∈ C, pythonDefMatch l = none)
    (hlen : MAX_FUNCTION_LINES < B.length + 1) :
    check_function_length M content fp pyTag =
      [⟨Severity.WARNING, catFnLen, fnLenMsg f (B.length + 1), fp, 1, suggFnLen⟩] := by
  have hlm : langFunctionMatcher M pyTag = some pythonDefMatch := rfl
  have hpy : (pyTag == "python".data) = true := rfl
  unfold check_function_length
  rw [hlm]
  simp only [hpy]
  rw [hsplit]
  have hstep1 : flStep pythonDefMatch true 1 initFL h1 = ⟨true, f, 1, braceDelta h1, []⟩ := by
    simp [flStep, hm1, initFL]
  show (flRun pythonDefMatch true 2 (flStep pythonDefMatch true 1 initFL h1)
      (B ++ h2 :: C)).long_functions.map _ = _
  rw [hstep1]
  obtain ⟨bc2, hB2⟩ := flRun_none_python pythonDefMatch B 2 f 1 (braceDelta h1) []
    (h2 :: C) hB
  rw [hB2]
  have harith : 2 + B.length - 1 = B.length + 1 := by omega
  have hstep2 : flStep pythonDefMatch true (2 + B.length) ⟨true, f, 1, bc2, []⟩ h2
      = ⟨true, g, 2 + B.length, braceDelta h2, [(f, 1, B.length + 1)]⟩ := by
    simp only [flStep, hm2, harith]
    rw [if_pos]
    · simp
    · simp only [Bool.true_and]
      exact decide_eq_true hlen
  show (flRun pythonDefMatch true (2 + B.length + 1)
      (flStep pythonDefMatch true (2 + B.length) ⟨true, f, 1, bc2, []⟩ h2)
      C).long_functions.map _ = _
  rw [hstep2]
  obtain ⟨bc3, hC2⟩ := flRun_none_python pythonDefMatch C (2 + B.length + 1) g
    (2 + B.length) (braceDelta h2) [(f, 1, B.length + 1)] [] hC
  rw [List.append_nil] at hC2
  rw [hC2]
  rfl

set_option maxRecDepth 16384 in
/-- Witness for the amended C4: a 51-line Python function followed by a
second signature line yields exactly one WARNING naming `f`, line 1. -/
theorem function_length_amended_witness :
    check_function_length noMatchers demoC4W demoFp pyTag =
      [⟨Severity.WARNING, catFnLen,
        fnLenMsg ("f".data) ((List.replicate 50 ("    x = 1".data)).length + 1),
        demoFp, 1, suggFnLen⟩] :=
  function_length_amended noMatchers demoC4W demoFp
    ("def f():".data) ("def g():".data) ("f".data) ("g".data)
    (List.replicate 50 ("    x = 1".data)) (["    y = 2".data])
    (by decide) (by decide) (by decide) (by decide) (by decide) (by decide)

theorem check_line_length_sev (content fp : Str) :
    ∀ i ∈ check_line_length content fp, i.severity = Severity.WARNING := by
  intro i hi
  unfold check_line_length at hi
  split at hi
  · simp at hi
  · simp at hi
    rw [hi]

theorem check_file_length_sev (content fp : Str) :
    ∀ i ∈ check_file_length content fp, i.severity = Severity.WARNING := by
  intro i hi
  unfold check_file_length at hi
  split at hi
  · simp at hi
    rw [hi]
  · simp at hi

theorem check_function_length_sev (M : Str → Str → Option Str)
    (content fp language : Str) :
    ∀ i ∈ check_function_length M content fp language, i.severity = Severity.WARNING := by
  intro i hi
  unfold check_function_length at hi
  split at hi
  · simp at hi
  · rw [List.mem_map] at hi
    obtain ⟨t, -, rfl⟩ := hi
    rfl

theorem check_naming_conventions_sev (content fp language : Str) :
    ∀ i ∈ check_naming_conventions content fp language, i.severity = Severity.INFO := by
  intro i hi
  unfold check_naming_conventions at hi
  split at hi
  · simp at hi
  · simp at hi
    rw [hi]

theorem check_todo_fixme_sev (content fp : Str) :
    ∀ i ∈ check_todo_fixme content fp,
      i.severity = Severity.WARNING ∨ i.severity = Severity.INFO := by
  intro i hi
  unfold check_todo_fixme at hi
  rw [List.mem_append] at hi
  rcases hi with hi | hi
  · left
    split at hi
    · simp at hi
    · simp at hi
      rw [hi]
  · right
    split at hi
    · simp at hi
    · simp at hi
      rw [hi]

theorem check_duplicate_code_sev (content fp : Str) :
    ∀ i ∈ check_duplicate_code content fp, i.severity = Severity.INFO := by
  intro i hi
  unfold check_duplicate_code at hi
  split at hi
  · simp at hi
  · split at hi
    · simp at hi
    · simp at hi
      rw [hi]

theorem scan_file_no_error (M : Str → Str → Option Str) (f : SrcFile) :
    ∀ i ∈ scan_file M f, i.severity ≠ Severity.ERROR := by
  intro i hi
  unfold scan_file at hi
  split at hi
  · simp at hi
    rw [hi]
    simp
  · simp only [List.mem_append] at hi
    rcases hi with ((((h | h) | h) | h) | h) | h
    · rw [check_line_length_sev _ _ _ h]
      simp
    · rw [check_file_length_sev _ _ _ h]
      simp
    · rw [check_function_length_sev _ _ _ _ _ h]
      simp
    · rw [check_naming_conventions_sev _ _ _ _ h]
      simp
    · rcases check_todo_fixme_sev _ _ _ h with hs | hs <;> rw [hs] <;> simp
    · rw [check_duplicate_code_sev _ _ _ h]
      simp

theorem scan_fold_issues (M : Str → Str → Option Str) :
    ∀ (files : List SrcFile) (r : QualityReport),
      (files.foldl (fun r f => (scan_file M f).foldl add_issue r) r).issues
        = r.issues ++ (files.map (scan_file M)).flatten := by
  intro files
  induction files with
  | nil => simp
  | cons f t ih =>
    intro r
    simp only [List.foldl_cons, List.map_cons, List.flatten_cons]
    rw [ih, addIssue_fold_issues, List.append_assoc]

theorem scan_fold_passed_of_no_error (M : Str → Str → Option Str) :
    ∀ (files : List SrcFile) (r : QualityReport),
      (files.foldl (fun r f => (scan_file M f).foldl add_issue r) r).passed = r.passed := by
  intro files
  induction files with
  | nil => simp
  | cons f t ih =>
    intro r
    simp only [List.foldl_cons]
    rw [ih, addIssue_fold_passed]
    have : (scan_file M f).any (fun i => i.severity == Severity.ERROR) = false := by
      rw [List.any_eq_false]
      intro i hi
      exact fun h => scan_file_no_error M f i hi (eq_of_beq h)
    rw [this]
    simp

/-- Claim C9 (implicit): no check run by `scan_file` ever creates an ERROR
issue — the caught-exception path included — so for every eligible file
list (any language mix, any signature-pattern assignment `M`) the final
report's `passed` is true and `main` returns exit code 0. -/
theorem scan_issues_never_error (M : Str → Str → Option Str) (files : List SrcFile) :
    (∀ i ∈ (scan_directory M files).1.issues, i.severity ≠ Severity.ERROR) ∧
    (scan_directory M files).1.passed = true ∧
    main_exit M files = 0 := by
  refine ⟨?_, ?_, ?_⟩
  · intro i hi
    unfold scan_directory at hi
    simp only at hi
    rw [scan_fold_issues] at hi
    simp only [freshReport, List.nil_append] at hi
    rw [List.mem_flatten] at hi
    obtain ⟨l, hl, hil⟩ := hi
    rw [List.mem_map] at hl
    obtain ⟨f, -, rfl⟩ := hl
    exact scan_file_no_error M f i hil
  · unfold scan_directory
    simp only
    rw [scan_fold_passed_of_no_error]
    rfl
  · unfold main_exit
    rw [show (scan_directory M files).1.passed = true from by
      unfold scan_directory
      simp only
      rw [scan_fold_passed_of_no_error]
      rfl]
    rfl

/-- Witness for C9 at a concrete two-file run (one Python file, one
JavaScript file): the report passes and the exit code is 0. -/
theorem scan_issues_never_error_witness :
    main_exit noMatchers [demoOkFile, demoOkFile2] = 0 :=
  (scan_issues_never_error noMatchers [demoOkFile, demoOkFile2]).2.2

/-- Counterexample to C7 as stated: a run over a single file whose read
fails does produce the single INFO scan-error issue, but the failing file
still counts towards `files_scanned` (the source increments `file_count`
unconditionally after `scan_file`), so it does not contribute zero to the
aggregate metrics. -/
theorem scan_error_claim_false :
    demoBadFile.read = Except.error ("boom".data) ∧
    (scan_directory noMatchers [demoBadFile]).1.issues
      = [⟨Severity.INFO, catScanErr, msgScanErr ("boom".data), demoBadFile.path, 0, []⟩] ∧
    (scan_directory noMatchers [demoBadFile]).2.files_scanned = 1 ∧
    (scan_directory noMatchers [demoBadFile]).2.total_lines = 0 :=
  ⟨rfl, by decide, by decide, by decide⟩

/-- Claim C7 amended: a per-file read failure is caught and converted into
exactly one INFO scan-error issue for that file; the failing file
contributes zero to `total_lines` but is still counted in
`files_scanned`, and scanning of all other files in the run completes
exactly as it would on its own. -/
theorem scan_error_amended (M : Str → Str → Option Str)
    (before after : List SrcFile) (bad : SrcFile) (e : Str)
    (hbad : bad.read = Except.error e) :
    (scan_directory M (before ++ bad :: after)).1.issues
      = (scan_directory M before).1.issues
        ++ ⟨Severity.INFO, catScanErr, msgScanErr e, bad.path, 0, []⟩
          :: (scan_directory M after).1.issues ∧
    (scan_directory M (before ++ bad :: after)).2.files_scanned
      = before.length + 1 + after.length ∧
    (scan_directory M (before ++ bad :: after)).2.total_lines
      = (scan_directory M before).2.total_lines
        + (scan_directory M after).2.total_lines := by
  have hscan : scan_file M bad
      = [⟨Severity.INFO, catScanErr, msgScanErr e, bad.path, 0, []⟩] := by
    unfold scan_file
    rw [hbad]
  have hcount : fileLineCount bad = 0 := by
    unfold fileLineCount
    rw [hbad]
  refine ⟨?_, ?_, ?_⟩
  · unfold scan_directory
    simp only
    rw [scan_fold_issues, scan_fold_issues, scan_fold_issues]
    simp only [freshReport, List.nil_append, List.map_append, List.map_cons,
      List.flatten_append, List.flatten_cons, hscan]
    simp
  · unfold scan_directory
    simp only
    rw [List.length_append, List.length_cons]
    omega
  · unfold scan_directory
    simp only
    rw [List.map_append, List.map_cons, hcount]
    rw [List.sum_append, List.sum_cons]
    omega

/-- Witness for the amended C7 at a concrete three-file run: the middle
file's read fails; its issue appears between the issues of the other two
files, `files_scanned` is 3, and the failing file adds no lines. -/
theorem scan_error_amended_witness :
    (scan_directory noMatchers [demoOkFile, demoBadFile, demoOkFile2]).1.issues
      = (scan_directory noMatchers [demoOkFile]).1.issues
        ++ ⟨Severity.INFO, catScanErr, msgScanErr ("boom".data), demoBadFile.path, 0, []⟩
          :: (scan_directory noMatchers [demoOkFile2]).1.issues ∧
    (scan_directory noMatchers [demoOkFile, demoBadFile, demoOkFile2]).2.files_scanned
      = 1 + 1 + 1 ∧
    (scan_directory noMatchers [demoOkFile, demoBadFile, demoOkFile2]).2.total_lines
      = (scan_directory noMatchers [demoOkFile]).2.total_lines
        + (scan_directory noMatchers [demoOkFile2]).2.total_lines :=
  scan_error_amended noMatchers [demoOkFile] [demoOkFile2] demoBadFile ("boom".data) rfl

theorem exprDP_nodes (e : PyExpr) : exprDP e = (exprNodes e).count true := by
  induction e with
  | atom => rfl
  | boolAnd a b iha ihb =>
    simp only [exprDP, exprNodes, List.count_cons, List.count_append, iha, ihb]
    simp
    omega
  | boolOr a b iha ihb =>
    simp only [exprDP, exprNodes, List.count_cons, List.count_append, iha, ihb]
    simp
    omega
  | condExp c t e ihc iht ihe =>
    simp only [exprDP, exprNodes, List.count_cons, List.count_append, ihc, iht, ihe]
    simp
    omega
  | compound a b iha ihb =>
    simp only [exprDP, exprNodes, List.count_cons, List.count_append, iha, ihb]
    simp

mutual
theorem stmtDP_nodes : ∀ s : PyStmt, stmtDP s = (stmtNodes s).count true
  | .simpleStmt e => by
    simp only [stmtDP, stmtNodes, List.count_cons, exprDP_nodes e]
    simp
  | .passStmt => rfl
  | .ifStmt c t e => by
    simp only [stmtDP, stmtNodes, List.count_cons, List.count_append, exprDP_nodes c,
      blockDP_nodes t, blockDP_nodes e]
    simp
    omega
  | .forStmt it b e => by
    simp only [stmtDP, stmtNodes, List.count_cons, List.count_append, exprDP_nodes it,
      blockDP_nodes b, blockDP_nodes e]
    simp
    omega
  | .whileStmt c b e => by
    simp only [stmtDP, stmtNodes, List.count_cons, List.count_append, exprDP_nodes c,
      blockDP_nodes b, blockDP_nodes e]
    simp
    omega
  | .tryStmt b hs e f => by
    simp only [stmtDP, stmtNodes, List.count_cons, List.count_append,
      blockDP_nodes b, handlersDP_nodes hs, blockDP_nodes e, blockDP_nodes f]
    simp
  | .funcDef n p b => by
    simp only [stmtDP, stmtNodes, List.count_cons, blockDP_nodes b]
    simp
  | .classDef n b => by
    simp only [stmtDP, stmtNodes, List.count_cons, blockDP_nodes b]
    simp
theorem blockDP_nodes : ∀ b : PyBlock, blockDP b = (blockNodes b).count true
  | .nil => rfl
  | .cons s t => by
    simp only [blockDP, blockNodes, List.count_append, stmtDP_nodes s, blockDP_nodes t]
theorem handlersDP_nodes : ∀ hs : PyHandlers, handlersDP hs = (handlerNodes hs).count true
  | .nil => rfl
  | .cons b t => by
    simp only [handlersDP, handlerNodes, List.count_cons, List.count_append,
      blockDP_nodes b, handlersDP_nodes t]
    simp
    omega
end

theorem complexity_eq_decisionCount (body : PyBlock) :
    complexity body = 1 + decisionCount body := by
  unfold complexity decisionCount
  rw [blockDP_nodes]

mutual
theorem collectStmt_cc : ∀ (s : PyStmt) (r : FunctionRecord),
    r ∈ collectStmt s → r.cc = complexity r.body
  | .funcDef n p b, r => by
    intro hr
    simp only [collectStmt, List.mem_append] at hr
    rcases hr with hr | hr
    · split at hr
      · simp at hr
      · simp at hr
        rw [hr]
    · exact collectBlock_cc b r hr
  | .classDef n b, r => fun hr => collectBlock_cc b r hr
  | .ifStmt c t e, r => by
    intro hr
    rcases List.mem_append.mp hr with hr | hr
    · exact collectBlock_cc t r hr
    · exact collectBlock_cc e r hr
  | .forStmt it b e, r => by
    intro hr
    rcases List.mem_append.mp hr with hr | hr
    · exact collectBlock_cc b r hr
    · exact collectBlock_cc e r hr
  | .whileStmt c b e, r => by
    intro hr
    rcases List.mem_append.mp hr with hr | hr
    · exact collectBlock_cc b r hr
    · exact collectBlock_cc e r hr
  | .tryStmt b hs e f, r => by
    intro hr
    simp only [collectStmt, List.mem_append] at hr
    rcases hr with ((hr | hr) | hr) | hr
    · exact collectBlock_cc b r hr
    · exact collectHandlers_cc hs r hr
    · exact collectBlock_cc e r hr
    · exact collectBlock_cc f r hr
  | .simpleStmt e, r => by
    intro hr
    simp [collectStmt] at hr
  | .passStmt, r => by
    intro hr
    simp [collectStmt] at hr
theorem collectBlock_cc : ∀ (b : PyBlock) (r : FunctionRecord),
    r ∈ collectBlock b → r.cc = complexity r.body
  | .nil, r => by
    intro hr
    simp [collectBlock] at hr
  | .cons s t, r => by
    intro hr
    rcases List.mem_append.mp hr with hr | hr
    · exact collectStmt_cc s r hr
    · exact collectBlock_cc t r hr
theorem collectHandlers_cc : ∀ (hs : PyHandlers) (r : FunctionRecord),
    r ∈ collectHandlers hs → r.cc = complexity r.body
  | .nil, r => by
    intro hr
    simp [collectHandlers] at hr
  | .cons b t, r => by
    intro hr
    rcases List.mem_append.mp hr with hr | hr
    · exact collectBlock_cc b r hr
    · exact collectHandlers_cc t r hr
end

theorem seqIf_blockDP : ∀ body : PyBlock,
    (∀ s ∈ blockStmts body, ∃ c t, s = PyStmt.ifStmt c t PyBlock.nil ∧
      (exprNodes c).count true = 0 ∧ decisionCount t = 0) →
    blockDP body = (blockStmts body).length
  | .nil, _ => rfl
  | .cons s rest, h => by
    obtain ⟨c, t, hs, hc, ht⟩ := h s (by simp [blockStmts])
    have hrest := seqIf_blockDP rest (fun x hx => h x (by simp [blockStmts, hx]))
    subst hs
    simp only [blockDP, stmtDP, blockStmts, List.length_cons, hrest]
    rw [exprDP_nodes c, hc]
    rw [show blockDP t = 0 from by rw [blockDP_nodes t]; exact ht]
    simp [blockDP]
    omega

/-- Claim C2 (spec-modelled; `PythonAnalyzer` of `quality_checker.py` is
not under `src/`): every FunctionRecord produced by the exact structural
analyzer has complexity `1 +` the number of decision points
(`if`/`elif` branches, loops, exception handler clauses, `and`/`or`
occurrences, conditional expressions) in its body; a body with zero
decision points has complexity exactly 1; and a body of N sequential
non-nested `if` statements (whose conditions and branches contain no
decision points) has complexity exactly N+1. -/
theorem analyzer_complexity_spec :
    (∀ (fp : Str) (mod : PyBlock) (r : FunctionRecord),
      r ∈ (analyze fp (Except.ok mod)).2 → r.cc = 1 + decisionCount r.body) ∧
    (∀ body : PyBlock, decisionCount body = 0 → complexity body = 1) ∧
    (∀ body : PyBlock,
      (∀ s ∈ blockStmts body, ∃ c t, s = PyStmt.ifStmt c t PyBlock.nil ∧
        (exprNodes c).count true = 0 ∧ decisionCount t = 0) →
      complexity body = (blockStmts body).length + 1) := by
  refine ⟨?_, ?_, ?_⟩
  · intro fp mod r hr
    have hmem : r ∈ collectBlock mod := hr
    rw [collectBlock_cc mod r hmem, complexity_eq_decisionCount]
  · intro body h
    rw [complexity_eq_decisionCount, h]
  · intro body h
    unfold complexity
    rw [seqIf_blockDP body h]
    omega

/-- Witness for C2: three sequential ifs give complexity 4 = 3 + 1, and
the analyzer's record for a function with that body carries that
complexity. -/
theorem analyzer_complexity_spec_witness :
    complexity demoSeqIfs = (blockStmts demoSeqIfs).length + 1 :=
  analyzer_complexity_spec.2.2 demoSeqIfs (by
    intro s hs
    simp only [demoSeqIfs, blockStmts, List.mem_cons, List.not_mem_nil, or_false] at hs
    rcases hs with h | h | h <;>
      exact h ▸ ⟨PyExpr.atom, PyBlock.cons PyStmt.passStmt PyBlock.nil, rfl, rfl, rfl⟩)

/-- Claim C3 (spec-modelled; the parser and `PythonAnalyzer` of
`quality_checker.py` are not under `src/`): for every parse failure the
analyzer yields exactly one issue, of severity ERROR and category
`syntax error` carrying the parser's reported line; the FunctionRecord
set is empty; and any report whose issues include that issue has
`passed = false`. -/
theorem syntax_error_issue_spec (fp msg : Str) (line : Nat)
    (prior : List QualityIssue) :
    (analyze fp (Except.error (msg, line))).1.length = 1 ∧
    (∀ i ∈ (analyze fp (Except.error (msg, line))).1,
      i.severity = Severity.ERROR ∧ i.category = catSyntaxError ∧ i.line = line) ∧
    (analyze fp (Except.error (msg, line))).2 = [] ∧
    ((prior ++ (analyze fp (Except.error (msg, line))).1).foldl
      add_issue freshReport).passed = false := by
  refine ⟨rfl, ?_, rfl, ?_⟩
  · intro i hi
    simp only [analyze, List.mem_singleton] at hi
    rw [hi]
    exact ⟨rfl, rfl, rfl⟩
  · rw [addIssue_fold_passed]
    have hany : ((prior ++ (analyze fp (Except.error (msg, line))).1).any
        (fun i => i.severity == Severity.ERROR)) = true := by
      rw [List.any_append]
      have h2 : ((analyze fp (Except.error (msg, line))).1.any
          (fun i => i.severity == Severity.ERROR)) = true := rfl
      rw [h2, Bool.or_true]
    rw [hany]
    rfl

/-- Witness for C3 at a concrete parse failure: the resulting report does
not pass. -/
theorem syntax_error_issue_spec_witness :
    ((([] : List QualityIssue)
      ++ (analyze demoFp (Except.error ("invalid syntax".data, 1))).1).foldl
      add_issue freshReport).passed = false :=
  (syntax_error_issue_spec demoFp ("invalid syntax".data) 1 []).2.2.2
